import Mathlib

/-!
Shallow embedding of the TRACE agent core (src/trace_agent/agent.py and
src/trace_agent/memory.py).  Strings are modelled as `List Char`; Python's
truthiness tests, `str.find`, `str.strip`, `str.splitlines`, `str.lower`
and slicing are embedded explicitly.  Model/LLM calls are abstracted as
oracles supplying the response text.
-/

/-- Python `s.startswith(pat)` on character lists: `startsWithL hay pat`. -/
def startsWithL : List Char → List Char → Bool
  | _, [] => true
  | [], _ :: _ => false
  | c :: cs, p :: ps => c = p && startsWithL cs ps

/-- Python `hay.find(pat)`: index of the leftmost occurrence, `none` for -1. -/
def findSub : List Char → List Char → Option Nat
  | [], pat => if pat.isEmpty then some 0 else none
  | c :: cs, pat =>
    if startsWithL (c :: cs) pat then some 0
    else (findSub cs pat).map (· + 1)

/-- Python `pat in hay` substring test. -/
def containsSub (hay pat : List Char) : Bool := (findSub hay pat).isSome

/-- The characters Python `str.strip()` treats as whitespace (CPython's
`Py_UNICODE_ISSPACE`): tab, LF, VT, FF, CR, the separators `\x1c`-`\x1f`,
space, NEL `\x85`, NBSP `\xa0`, Ogham space mark `\u1680`, the en-quad to
hair-space range `\u2000`-`\u200a`, the line and paragraph separators
`\u2028` and `\u2029`, narrow NBSP `\u202f`, medium mathematical space
`\u205f`, and the ideographic space `\u3000`. -/
def pyIsSpace (c : Char) : Bool :=
  c = ' ' || c = '\t' || c = '\n' || c = '\x0b' || c = '\x0c' || c = '\r' ||
  c = '\x1c' || c = '\x1d' || c = '\x1e' || c = '\x1f' ||
  c = '\x85' || c = '\xa0' || c = '\u1680' ||
  ('\u2000' ≤ c && c ≤ '\u200a') ||
  c = '\u2028' || c = '\u2029' || c = '\u202f' || c = '\u205f' || c = '\u3000'

/-- Python `s.strip()`: drop whitespace from both ends. -/
def pyStrip (cs : List Char) : List Char :=
  ((cs.dropWhile pyIsSpace).reverse.dropWhile pyIsSpace).reverse

/-- Python `s.lower()` (ASCII case folding, matching the markers used here). -/
def toLowerL (cs : List Char) : List Char := cs.map Char.toLower

/-- The single-character line boundaries of Python `str.splitlines()` other
than CR (which is handled separately so that CRLF counts as one boundary):
LF, VT `\x0b`, FF `\x0c`, the separators `\x1c`-`\x1e`, NEL `\x85`, and
the line/paragraph separators `\u2028`/`\u2029`. -/
def pyIsLineBreak (c : Char) : Bool :=
  c = '\n' || c = '\x0b' || c = '\x0c' || c = '\x1c' || c = '\x1d' || c = '\x1e' ||
  c = '\x85' || c = '\u2028' || c = '\u2029'

/-- Auxiliary for `splitlines` with explicit fuel: accumulate the current line
(reversed in `cur`), splitting at CR, CRLF and every `pyIsLineBreak`
character.  Each step strictly shortens the character list, so fuel
`cs.length` always suffices (`splitLinesAuxF_irrel` below). -/
def splitLinesAuxF : Nat → List Char → List Char → List (List Char)
  | _, [], cur => [cur.reverse]
  | 0, _ :: _, cur => [cur.reverse]
  | fuel + 1, c :: rest, cur =>
    if c = '\r' then
      if rest.head? = some '\n' then
        cur.reverse :: (if rest.tail = [] then [] else splitLinesAuxF fuel rest.tail [])
      else
        cur.reverse :: (if rest = [] then [] else splitLinesAuxF fuel rest [])
    else if pyIsLineBreak c then
      cur.reverse :: (if rest = [] then [] else splitLinesAuxF fuel rest [])
    else splitLinesAuxF fuel rest (c :: cur)

/-- Python `s.splitlines()`: split at the Unicode line boundaries, with CRLF
as a single boundary and no trailing empty line. -/
def splitlines (cs : List Char) : List (List Char) :=
  if cs = [] then [] else splitLinesAuxF cs.length cs []

/-! ### `_ThinkStreamFilter` (agent.py lines 43-77) -/

/-- The `<think>` start marker (7 characters). -/
def thinkOpenTag : List Char := "<think>".data

/-- The `</think>` end marker (8 characters). -/
def thinkCloseTag : List Char := "</think>".data

/-- Mutable state of `_ThinkStreamFilter`: pending buffer and suppress flag. -/
structure ThinkStreamFilter where
  buffer : List Char
  suppress : Bool
deriving DecidableEq, Repr

/-- `_ThinkStreamFilter.__init__`: empty buffer, not suppressing. -/
def freshFilter : ThinkStreamFilter := ⟨[], false⟩

/-- The `while self._buffer:` loop of `feed`, with explicit fuel.  Returns the
final (buffer, suppress) pair together with the visible text accumulated in
`acc`.  `7` and `8` are the lengths of `<think>` and `</think>`.  Every
iteration on a non-empty buffer either returns or strictly shortens the
buffer, so fuel `buf.length` always suffices (`feedLoopF_irrel` below shows
any fuel of at least `buf.length` gives the same result, so the fuel is an
implementation device, not part of the semantics). -/
def feedLoopF : Nat → List Char → Bool → List Char → (List Char × Bool) × List Char
  | _, [], suppress, acc => (([], suppress), acc)
  | 0, buf, suppress, acc => ((buf, suppress), acc)
  | fuel + 1, buf, suppress, acc =>
    if suppress then
      match findSub buf thinkCloseTag with
      | none => (([], true), acc)
      | some e => feedLoopF fuel (buf.drop (e + 8)) false acc
    else
      match findSub buf thinkOpenTag with
      | none => (([], false), acc ++ buf)
      | some s => feedLoopF fuel (buf.drop (s + 7)) true (acc ++ buf.take s)

/-- The scanning loop of `feed`, run with sufficient fuel. -/
def feedLoop (buf : List Char) (suppress : Bool) (acc : List Char) :
    (List Char × Bool) × List Char :=
  feedLoopF buf.length buf suppress acc

/-- `_ThinkStreamFilter.feed(chunk) -> visible`: append the chunk to the
buffer and run the scanning loop. -/
def ThinkStreamFilter.feed (f : ThinkStreamFilter) (chunk : List Char) :
    ThinkStreamFilter × List Char :=
  let r := feedLoop (f.buffer ++ chunk) f.suppress []
  (⟨r.1.1, r.1.2⟩, r.2)

/-- Feed a sequence of chunks to a filter, concatenating the visible outputs. -/
def feedAll (f : ThinkStreamFilter) : List (List Char) → ThinkStreamFilter × List Char
  | [] => (f, [])
  | c :: cs =>
    let r1 := f.feed c
    let r2 := feedAll r1.1 cs
    (r2.1, r1.2 ++ r2.2)

example : (feedAll freshFilter ["a<think>x</think>b".data]).2 = "ab".data := by decide
example : (feedAll freshFilter ["a<thi".data, "nk>x</think>b".data]).2
    = "a<think>x</think>b".data := by decide

/-! ### memory.py: `PlanStep`, `StepResult`, `PlanContext`, `ConversationState` -/

/-- The fixed plan steps for scene generation (memory.py `PlanStep`). -/
inductive PlanStep where
  | UNDERSTAND_INTENT
  | SELECT_NODE_TYPES
  | DIVIDE_ZONES
  | ASSIGN_NODE_ATTRIBUTES
  | GENERATE_JSON
  | GENERATE_SCENEGRAPH
  | VERIFY_CODE
deriving DecidableEq, Repr

/-- Result of a single plan step (memory.py `StepResult`). -/
structure StepResult where
  think : List Char
  action : List Char
  observe : List Char
  output : Option (List Char) := none
deriving DecidableEq, Repr

/-- Value stored in `ConversationState.topo_json`: seeded as a JSON-like
object by the caller, but assigned the raw output string by `record_step`
(the source does this under a `type: ignore`). -/
inductive TopoVal where
  | obj (entries : List (List Char × List Char))
  | str (s : List Char)
deriving DecidableEq, Repr

/-- Python dict key-membership test for the `plan_context.steps` mapping. -/
def hasKey : List (PlanStep × List StepResult) → PlanStep → Bool
  | [], _ => false
  | e :: rest, st => if e.1 = st then true else hasKey rest st

/-- Python dict lookup (first matching key; keys are unique in a dict). -/
def lookupIn : List (PlanStep × List StepResult) → PlanStep → List StepResult
  | [], _ => []
  | e :: rest, st => if e.1 = st then e.2 else lookupIn rest st

/-- Context accumulating per-step results (memory.py `PlanContext`), with the
Python dict modelled as an insertion-ordered association list. -/
structure PlanContext where
  steps : List (PlanStep × List StepResult) := []
deriving DecidableEq, Repr

/-- `PlanContext.add_result`: `steps.setdefault(step, []).append(result)`. -/
def add_result (pc : PlanContext) (step : PlanStep) (result : StepResult) : PlanContext :=
  if hasKey pc.steps step then
    ⟨pc.steps.map (fun e => if e.1 = step then (e.1, e.2 ++ [result]) else e)⟩
  else ⟨pc.steps ++ [(step, [result])]⟩

/-- `steps[step]` results recorded for a step (empty when absent). -/
def lookupSteps (pc : PlanContext) (step : PlanStep) : List StepResult :=
  lookupIn pc.steps step

/-- Session state (memory.py `ConversationState`). -/
structure ConversationState where
  overall_goal : Option (List Char) := none
  topo_json : TopoVal := .obj []
  plan_context : PlanContext := ⟨[]⟩
  current_step : Option PlanStep := none
  persistent_prompts : List (List Char × List Char) := []
deriving DecidableEq, Repr

/-- `ConversationState.set_goal`. -/
def set_goal (s : ConversationState) (goal : List Char) : ConversationState :=
  { s with overall_goal := some goal }

/-- `ConversationState.set_topology`. -/
def set_topology (s : ConversationState) (topo : TopoVal) : ConversationState :=
  { s with topo_json := topo }

/-- `ConversationState.set_current_step`. -/
def set_current_step (s : ConversationState) (step : PlanStep) : ConversationState :=
  { s with current_step := some step }

/-- Python truthiness of an `Optional[str]`: `None` and `""` are falsy. -/
def pyTruthyStr : Option (List Char) → Bool
  | none => false
  | some s => !s.isEmpty

/-- `ConversationState.record_step`: append the result to the plan context
and, when the step is `GENERATE_JSON` and the result's output is truthy,
overwrite `topo_json` with that output. -/
def record_step (s : ConversationState) (step : PlanStep) (result : StepResult) :
    ConversationState :=
  let s1 := { s with plan_context := add_result s.plan_context step result }
  if step = PlanStep.GENERATE_JSON ∧ pyTruthyStr result.output = true then
    { s1 with topo_json := TopoVal.str (result.output.getD []) }
  else s1

/-! ### agent.py: configuration, parsing, heuristics, gates -/

/-- `AgentConfig` (agent.py lines 20-31); the stream/progress callbacks do not
affect the orchestration state and are omitted.  `max_react_turns` drives
`range(...)` and is modelled as a natural number. -/
structure AgentConfig where
  auto_execute : Bool := true
  max_react_turns : Nat := 7
  min_react_turns : Int := 2
  approval_callback : Option (PlanStep → StepResult → Bool × Option (List Char)) := none

/-- Literal `"Think:"`. -/
def thinkKey : List Char := "Think:".data

/-- Literal `"Action:"`. -/
def actionKey : List Char := "Action:".data

/-- Literal `"Observe:"`. -/
def observeKey : List Char := "Observe:".data

/-- Literal `"N/A"`. -/
def nA : List Char := "N/A".data

/-- Literal `"[finished]"`. -/
def finishedMarker : List Char := "[finished]".data

/-- Literal `"yes"`. -/
def yesKey : List Char := "yes".data

/-- Literal placeholder `"(无新思考)"` used by `_extract_step_result`. -/
def noNewThink : List Char := "(无新思考)".data

/-- Fold step of `_parse_react_blocks`: per line, the last `Think:` /
`Action:` / `Observe:` line wins; `line.partition(":")[2]` is `line` after
its first colon, i.e. after the 6/7/8-character key. -/
def reactLineUpd (acc : List Char × List Char × List Char) (line : List Char) :
    List Char × List Char × List Char :=
  if startsWithL line thinkKey then (pyStrip (line.drop 6), acc.2.1, acc.2.2)
  else if startsWithL line actionKey then (acc.1, pyStrip (line.drop 7), acc.2.2)
  else if startsWithL line observeKey then (acc.1, acc.2.1, pyStrip (line.drop 8))
  else acc

/-- `TraceAgent._parse_react_blocks` (agent.py lines 268-279). -/
def parse_react_blocks (content : List Char) : StepResult :=
  let r := (splitlines content).foldl reactLineUpd ([], [], [])
  { think := if r.1 = [] then pyStrip content else r.1,
    action := if r.2.1 = [] then nA else r.2.1,
    observe := if r.2.2 = [] then pyStrip content else r.2.2,
    output := none }

/-- `TraceAgent._step_is_complete` (agent.py lines 292-302): below the
minimum turn count return `False`; otherwise look for `"[finished]"` in
`f"{result.action} {result.observe}".lower()`. -/
def step_is_complete (cfg : AgentConfig) (result : StepResult) (turn_index : Nat) : Bool :=
  if ((turn_index : Int) + 1) < max 1 cfg.min_react_turns then false
  else containsSub (toLowerL (result.action ++ [' '] ++ result.observe)) finishedMarker

/-- `TraceAgent.is_scene_construction_goal` (agent.py lines 114-120), with the
classifier's response abstracted as `response`.  The second component records
whether the model was invoked at all. -/
def is_scene_construction_goal (overall_goal : Option (List Char))
    (response : List Char) : Bool × Bool :=
  if pyTruthyStr overall_goal = false then (false, false)
  else (containsSub (toLowerL response) yesKey, true)

/-- `TraceAgent.derive_goal` (agent.py lines 104-112), with the model's reply
abstracted as `response`: strip it, store it as the overall goal, return it.
The source has no error path here. -/
def derive_goal (s : ConversationState) (response : List Char) :
    ConversationState × List Char :=
  (set_goal s (pyStrip response), pyStrip response)

/-- The `ValueError` raised by `_confirm_step` without an approval callback. -/
inductive ConfirmError where
  | valueError (msg : List Char)
deriving DecidableEq, Repr

/-- Message of the `ValueError` raised by `_confirm_step`. -/
def approvalErrMsg : List Char :=
  "auto_execute=False requires an approval_callback to continue".data

/-- `TraceAgent._confirm_step` (agent.py lines 281-290). -/
def confirm_step (cfg : AgentConfig) (step : PlanStep) (result : StepResult) :
    Except ConfirmError (StepResult × Bool) :=
  if cfg.auto_execute then .ok (result, true)
  else
    match cfg.approval_callback with
    | none => .error (.valueError approvalErrMsg)
    | some cb =>
      let pr := cb step result
      let result1 :=
        match pr.2 with
        | some t => if t ≠ [] then { result with think := t } else result
        | none => result
      .ok (result1, pr.1)

/-- The result `_confirm_step` hands back after a callback edit: the callback's
edited think text replaces `think` when truthy. -/
def applyEdit (cb : PlanStep → StepResult → Bool × Option (List Char))
    (step : PlanStep) (result : StepResult) : StepResult :=
  match (cb step result).2 with
  | some t => if t ≠ [] then { result with think := t } else result
  | none => result

/-! ### agent.py: `_extract_step_result` -/

/-- LangChain message kinds relevant to `_extract_step_result`: an AI message
carries its text content and the names of its tool calls (`tc.get("name", "")`,
possibly empty); a tool message carries its content. -/
inductive BaseMessage where
  | ai (content : List Char) (tool_calls : List (List Char))
  | tool (content : List Char)
  | human (content : List Char)
  | other
deriving DecidableEq, Repr

/-- The collection loop of `_extract_step_result` (agent.py lines 251-258):
think parts from non-empty AI content, action parts from tool-call names when
the call list is truthy, observe parts from tool messages, in message order. -/
def collectParts : List BaseMessage → List (List Char) × List (List Char) × List (List Char)
  | [] => ([], [], [])
  | m :: rest =>
    let r := collectParts rest
    match m with
    | .ai c tcs =>
      ((if c ≠ [] then c :: r.1 else r.1),
       (if tcs ≠ [] then tcs ++ r.2.1 else r.2.1),
       r.2.2)
    | .tool c => (r.1, r.2.1, c :: r.2.2)
    | _ => r

/-- Python `sep.join(p for p in parts if p)`. -/
def joinParts (sep : List Char) (parts : List (List Char)) : List Char :=
  List.intercalate sep (parts.filter (fun p => p ≠ []))

/-- Literal `"; "` separating tool-call names in `action`. -/
def actionSep : List Char := "; ".data

/-- `TraceAgent._extract_step_result` (agent.py lines 246-263): join the
collected parts of `messages[base_len:]`, with fallbacks `"(无新思考)"`,
`"N/A"`, and `observe` falling back to `think`; `output` is always `None`. -/
def extract_step_result (base_len : Nat) (messages : List BaseMessage) : StepResult :=
  let parts := collectParts (messages.drop base_len)
  let think0 := pyStrip (joinParts ['\n'] parts.1)
  let think := if think0 = [] then noNewThink else think0
  let action0 := pyStrip (joinParts actionSep parts.2.1)
  let observe0 := pyStrip (joinParts ['\n'] parts.2.2)
  { think := think,
    action := if action0 = [] then nA else action0,
    observe := if observe0 = [] then think else observe0,
    output := none }

/-! ### agent.py: `run_plan` and the ReAct loops

The LLM and the LangChain agent are abstracted by oracles: `turnResult step i`
is the `StepResult` that `_run_react_turn` extracts on 0-based turn `i` of
`step`, and the goal/classifier responses are the raw model reply texts. -/

/-- `TraceAgent.generate_plan` (agent.py lines 122-131). -/
def generate_plan : List PlanStep :=
  [PlanStep.UNDERSTAND_INTENT, PlanStep.SELECT_NODE_TYPES, PlanStep.DIVIDE_ZONES,
   PlanStep.ASSIGN_NODE_ATTRIBUTES, PlanStep.GENERATE_JSON,
   PlanStep.GENERATE_SCENEGRAPH, PlanStep.VERIFY_CODE]

/-- Python truthiness of the optional `topo_state` dict in `initialize_state`. -/
def topoTruthy : Option TopoVal → Bool
  | none => false
  | some (.obj entries) => entries ≠ []
  | some (.str s) => s ≠ []

/-- External responses feeding one `run_plan` call. -/
structure ModelOracle where
  goalResponse : List Char
  classifyResponse : List Char
  turnResult : PlanStep → Nat → StepResult

/-- The inner `for turn in range(max_react_turns)` loop of the scene branch
(agent.py lines 146-153), threading the session state: run a turn, pass it
through the approval gate, record it when accepted, stop on rejection or
completion.  Returns the state and the number of turns executed.  The fuel is
the number of loop iterations remaining, initially `max_react_turns`. -/
def run_step_turns (cfg : AgentConfig) (step : PlanStep) (orc : Nat → StepResult) :
    ConversationState → Nat → Nat → Except ConfirmError (ConversationState × Nat)
  | s, _, 0 => .ok (s, 0)
  | s, turn, fuel + 1 =>
    match confirm_step cfg step (orc turn) with
    | .error e => .error e
    | .ok (result, should_continue) =>
      let s1 := if should_continue then record_step s step result else s
      if should_continue = false ∨ step_is_complete cfg result turn then .ok (s1, 1)
      else
        match run_step_turns cfg step orc s1 (turn + 1) fuel with
        | .error e => .error e
        | .ok (s2, used) => .ok (s2, used + 1)

/-- One iteration of the scene branch's outer loop for a given step:
`set_current_step` followed by the bounded ReAct turns. -/
def run_plan_step (cfg : AgentConfig) (step : PlanStep) (orc : Nat → StepResult)
    (s : ConversationState) : Except ConfirmError (ConversationState × Nat) :=
  run_step_turns cfg step orc (set_current_step s step) 0 cfg.max_react_turns

/-- The scene branch: the fixed plan steps in order (agent.py lines 143-153). -/
def run_scene_steps (cfg : AgentConfig) (orc : ModelOracle) :
    List PlanStep → ConversationState → Except ConfirmError ConversationState
  | [], s => .ok s
  | step :: rest, s =>
    match run_plan_step cfg step (orc.turnResult step) s with
    | .error e => .error e
    | .ok (s1, _) => run_scene_steps cfg orc rest s1

/-- The `for turn in range(max_react_turns)` loop of `_run_generic_react`
(agent.py lines 161-170): accepted results accumulate in an ephemeral list;
the session state is never touched. -/
def run_generic_turns (cfg : AgentConfig) (orc : Nat → StepResult) :
    Nat → Nat → Except ConfirmError (List StepResult)
  | _, 0 => .ok []
  | turn, fuel + 1 =>
    match confirm_step cfg PlanStep.UNDERSTAND_INTENT (orc turn) with
    | .error e => .error e
    | .ok (result, should_continue) =>
      let rec1 := if should_continue then [result] else []
      if should_continue = false ∨ step_is_complete cfg result turn then .ok rec1
      else
        match run_generic_turns cfg orc (turn + 1) fuel with
        | .error e => .error e
        | .ok rest => .ok (rec1 ++ rest)

/-- `TraceAgent._run_generic_react` (agent.py lines 156-171). -/
def run_generic_react (cfg : AgentConfig) (orc : Nat → StepResult) :
    Except ConfirmError (List StepResult) :=
  run_generic_turns cfg orc 0 cfg.max_react_turns

/-- `TraceAgent.run_plan` (agent.py lines 133-154): seed the topology when
truthy, derive the goal, classify it, then run either the generic ReAct loop
(state untouched) or the seven-step scene plan.  Returns the final session
state (whose `plan_context` is what the source returns). -/
def run_plan (cfg : AgentConfig) (s0 : ConversationState) (topo : Option TopoVal)
    (orc : ModelOracle) : Except ConfirmError ConversationState :=
  let s1 := if topoTruthy topo then set_topology s0 (topo.getD (.obj [])) else s0
  let s2 := (derive_goal s1 orc.goalResponse).1
  let is_scene := (is_scene_construction_goal s2.overall_goal orc.classifyResponse).1
  if is_scene = false then
    match run_generic_react cfg (orc.turnResult PlanStep.UNDERSTAND_INTENT) with
    | .error e => .error e
    | .ok _ => .ok s2
  else
    run_scene_steps cfg orc generate_plan s2

/-! ### Concrete instances used to exercise the development -/

/-- The dataclass defaults of `AgentConfig`. -/
def defaultConfig : AgentConfig := {}

/-- A freshly constructed `ConversationState` (all dataclass defaults). -/
def emptyState : ConversationState := {}

/-- A plain step result with no completion marker and no structured output. -/
def sampleResult : StepResult :=
  { think := ("t".data), action := ("a".data), observe := ("o".data), output := none }

/-- A `GENERATE_JSON`-style result carrying a structured output. -/
def jsonResult : StepResult :=
  { think := ("t".data), action := ("a".data), observe := ("o".data), output := some ("x".data) }

/-- An approval callback that accepts exactly the results whose think text is
`"t0"` and never edits. -/
def cbReject : PlanStep → StepResult → Bool × Option (List Char) :=
  fun _ r => (r.think == ("t0".data), none)

/-- An approval callback that always accepts and rewrites the think text. -/
def cbEdit : PlanStep → StepResult → Bool × Option (List Char) :=
  fun _ _ => (true, some ("edited".data))

/-- Manual-approval configuration with the rejecting callback. -/
def cfgReject : AgentConfig :=
  { auto_execute := false, max_react_turns := 3, min_react_turns := 2,
    approval_callback := some cbReject }

/-- Manual-approval configuration with no callback at all. -/
def cfgNoCb : AgentConfig :=
  { auto_execute := false, max_react_turns := 7, min_react_turns := 2,
    approval_callback := none }

/-- Manual-approval configuration with the editing callback. -/
def cfgEdit : AgentConfig :=
  { auto_execute := false, max_react_turns := 7, min_react_turns := 2,
    approval_callback := some cbEdit }

/-- Turn oracle producing `"t0"`-think on turn 0 and `"t1"`-think later. -/
def orcReject : Nat → StepResult :=
  fun i => { think := if i = 0 then ("t0".data) else ("t1".data),
             action := [], observe := [], output := none }

/-- Auto-execute configuration with a single-turn budget. -/
def cfgSmall : AgentConfig :=
  { auto_execute := true, max_react_turns := 1, min_react_turns := 2,
    approval_callback := none }

/-- Oracle whose classifier reply is `"no"`: routes to the generic branch. -/
def orcGeneric : ModelOracle :=
  { goalResponse := ("build x".data), classifyResponse := ("no".data),
    turnResult := fun _ _ => sampleResult }

/-- The state `run_plan cfgSmall emptyState none orcGeneric` ends in. -/
def genericFinal : ConversationState :=
  { overall_goal := some ("build x".data), topo_json := .obj [],
    plan_context := ⟨[]⟩, current_step := none, persistent_prompts := [] }

/-! ## Theorems -/

/-- `feedLoopF` on an empty buffer ignores the fuel. -/
theorem feedLoopF_nil (f : Nat) (sup : Bool) (acc : List Char) :
    feedLoopF f [] sup acc = (([], sup), acc) := by
  cases f <;> rfl

/-- Any fuel of at least the buffer length gives the same `feedLoopF` result:
the fuel in `feedLoop` is an implementation device, not part of the semantics. -/
theorem feedLoopF_irrel : ∀ (f1 f2 : Nat) (buf : List Char) (sup : Bool) (acc : List Char),
    buf.length ≤ f1 → buf.length ≤ f2 → feedLoopF f1 buf sup acc = feedLoopF f2 buf sup acc := by
  intro f1
  induction f1 with
  | zero =>
    intro f2 buf sup acc h1 _
    have hb : buf = [] := by cases buf with
      | nil => rfl
      | cons c cs => simp at h1
    subst hb
    rw [feedLoopF_nil, feedLoopF_nil]
  | succ g1 ih =>
    intro f2 buf sup acc h1 h2
    cases buf with
    | nil => rw [feedLoopF_nil, feedLoopF_nil]
    | cons c cs =>
      cases f2 with
      | zero => simp at h2
      | succ g2 =>
        simp only [feedLoopF]
        cases sup with
        | true =>
          cases h : findSub (c :: cs) thinkCloseTag with
          | none => rfl
          | some e =>
            apply ih
            · simp at h1 ⊢; omega
            · simp at h2 ⊢; omega
        | false =>
          cases h : findSub (c :: cs) thinkOpenTag with
          | none => rfl
          | some s =>
            apply ih
            · simp at h1 ⊢; omega
            · simp at h2 ⊢; omega

/-- Any fuel of at least the list length gives the same `splitLinesAuxF` result. -/
theorem splitLinesAuxF_irrel : ∀ (f1 f2 : Nat) (cs cur : List Char),
    cs.length ≤ f1 → cs.length ≤ f2 → splitLinesAuxF f1 cs cur = splitLinesAuxF f2 cs cur := by
  intro f1
  induction f1 with
  | zero =>
    intro f2 cs cur h1 _
    have hb : cs = [] := by cases cs with
      | nil => rfl
      | cons c rest => simp at h1
    subst hb
    cases f2 <;> rfl
  | succ g1 ih =>
    intro f2 cs cur h1 h2
    cases cs with
    | nil => cases f2 <;> rfl
    | cons c rest =>
      cases f2 with
      | zero => simp at h2
      | succ g2 =>
        simp only [splitLinesAuxF]
        simp only [List.length_cons] at h1 h2
        by_cases hcr : c = '\r'
        · by_cases hh : rest.head? = some '\n'
          · have htl : rest.tail.length ≤ rest.length := by
              cases rest <;> simp
            by_cases ht : rest.tail = [] <;>
              simp [hcr, hh, ht, ih g2 rest.tail [] (by omega) (by omega)]
          · by_cases hr : rest = [] <;>
              simp [hcr, hh, hr, ih g2 rest [] (by omega) (by omega)]
        · by_cases hn : pyIsLineBreak c = true
          · by_cases hr : rest = [] <;>
              simp [hcr, hn, hr, ih g2 rest [] (by omega) (by omega)]
          · simp [hcr, hn, ih g2 rest (c :: cur) (by omega) (by omega)]

/-- C1: the stream filter is NOT chunk-boundary independent.  Feeding
`"a<think>secret</think>b"` in one chunk yields `"ab"`, but splitting it as
`"a<thi" ++ "nk>secret</think>b"` (the boundary inside the `<think>` marker)
makes the filter flush the partial marker and then never recognise the tag:
the concatenated visible output is the whole input, leaking the suppressed
span.  This refutes the claimed invariant at a concrete partition. -/
theorem thinkFilter_chunk_split_leak :
    (feedAll freshFilter [("a<thi".data), ("nk>secret</think>b".data)]).2
        = ("a<think>secret</think>b".data)
      ∧ (feedAll freshFilter [("a<think>secret</think>b".data)]).2 = ("ab".data)
      ∧ (feedAll freshFilter [("a<thi".data), ("nk>secret</think>b".data)]).2
        ≠ (feedAll freshFilter [("a<think>secret</think>b".data)]).2 := by
  refine ⟨by decide, by decide, by decide⟩

/-- If no line is a `Think:` line, the fold leaves the think slot untouched. -/
theorem foldl_reactLineUpd_think : ∀ (lines : List (List Char))
    (acc : List Char × List Char × List Char),
    (∀ l ∈ lines, startsWithL l thinkKey = false) →
    (lines.foldl reactLineUpd acc).1 = acc.1 := by
  intro lines
  induction lines with
  | nil => intro acc _; rfl
  | cons l ls ih =>
    intro acc h
    have hl : startsWithL l thinkKey = false := h l (by simp)
    have hrest : ∀ x ∈ ls, startsWithL x thinkKey = false := fun x hx => h x (by simp [hx])
    rw [List.foldl_cons, ih _ hrest]
    unfold reactLineUpd
    split
    · next hcond => simp [hl] at hcond
    · split
      · rfl
      · split <;> rfl

/-- If no line is an `Action:` line, the fold leaves the action slot untouched. -/
theorem foldl_reactLineUpd_action : ∀ (lines : List (List Char))
    (acc : List Char × List Char × List Char),
    (∀ l ∈ lines, startsWithL l actionKey = false) →
    (lines.foldl reactLineUpd acc).2.1 = acc.2.1 := by
  intro lines
  induction lines with
  | nil => intro acc _; rfl
  | cons l ls ih =>
    intro acc h
    have hl : startsWithL l actionKey = false := h l (by simp)
    have hrest : ∀ x ∈ ls, startsWithL x actionKey = false := fun x hx => h x (by simp [hx])
    rw [List.foldl_cons, ih _ hrest]
    unfold reactLineUpd
    split
    · rfl
    · split
      · next hcond => simp [hl] at hcond
      · split <;> rfl

/-- C2 counterexample: on an all-whitespace response (the empty string, or
the file separator `\x1c`, which Python strips as whitespace)
`_parse_react_blocks` returns a `StepResult` whose `think` and `observe` are
both EMPTY, contradicting the claimed unconditional non-emptiness. -/
theorem parse_react_blocks_blank_cex :
    ((parse_react_blocks []).think = [] ∧ (parse_react_blocks []).observe = []) ∧
    ((parse_react_blocks ['\x1c']).think = [] ∧ (parse_react_blocks ['\x1c']).observe = []) := by
  refine ⟨⟨by decide, by decide⟩, ⟨by decide, by decide⟩⟩

/-- C2 (amended): for any content whose trimmed text is non-empty,
`_parse_react_blocks` returns non-empty `think` and `observe`; `action`
defaults to `"N/A"` whenever no `Action:` line is present; and when no
`Think:` line is present, `think` is the entire trimmed response. -/
theorem parse_react_blocks_amended (content : List Char) (h : pyStrip content ≠ []) :
    (parse_react_blocks content).think ≠ [] ∧
    (parse_react_blocks content).observe ≠ [] ∧
    ((∀ l ∈ splitlines content, startsWithL l actionKey = false) →
      (parse_react_blocks content).action = nA) ∧
    ((∀ l ∈ splitlines content, startsWithL l thinkKey = false) →
      (parse_react_blocks content).think = pyStrip content) := by
  unfold parse_react_blocks
  refine ⟨?_, ?_, ?_, ?_⟩
  · by_cases h1 : ((splitlines content).foldl reactLineUpd ([], [], [])).1 = [] <;>
      simp [h1, h]
  · by_cases h2 : ((splitlines content).foldl reactLineUpd ([], [], [])).2.2 = [] <;>
      simp [h2, h]
  · intro hno
    have := foldl_reactLineUpd_action (splitlines content) ([], [], []) hno
    simp [this]
  · intro hno
    have := foldl_reactLineUpd_think (splitlines content) ([], [], []) hno
    simp [this]

/-- C2 witness: the amended theorem applied at the concrete content `"hello"`. -/
theorem parse_react_blocks_amended_witness :
    pyStrip ("hello".data) ≠ [] ∧ (parse_react_blocks ("hello".data)).think ≠ [] :=
  ⟨by decide, (parse_react_blocks_amended ("hello".data) (by decide)).1⟩

/-- C3 counterexample: the code joins `action` and `observe` with a SPACE
before searching for `"[finished]"`, so a marker split exactly at the field
boundary defeats the claimed iff.  At turn index 1 with the default
`min_react_turns = 2`, action `"[finish"` and observe `"ed]"`: the plain
concatenation of the two fields contains the marker and the index is at
least `minReactTurns - 1`, yet `_step_is_complete` returns false. -/
theorem step_is_complete_concat_cex :
    ((2 : Int) - 1 ≤ (1 : Int) ∧
      containsSub (toLowerL (("[finish".data) ++ ("ed]".data))) finishedMarker = true) ∧
    step_is_complete defaultConfig
      { think := [], action := ("[finish".data), observe := ("ed]".data), output := none } 1
      = false := by
  refine ⟨⟨by omega, by decide⟩, by decide⟩

/-- C3 (amended): `_step_is_complete` returns true iff the 0-based turn index
is at least `min_react_turns - 1` AND the lowercase of `action`, a single
space, and `observe` (the code's `f"{action} {observe}".lower()`) contains
the literal `"[finished]"`; in particular it is false below the minimum
regardless of marker presence. -/
theorem step_is_complete_amended (cfg : AgentConfig) (r : StepResult) (idx : Nat) :
    step_is_complete cfg r idx = true ↔
      (cfg.min_react_turns - 1 ≤ (idx : Int) ∧
        containsSub (toLowerL (r.action ++ [' '] ++ r.observe)) finishedMarker = true) := by
  unfold step_is_complete
  split
  · next hlt =>
    constructor
    · intro hf; simp at hf
    · rintro ⟨h1, _⟩
      exfalso
      rcases le_total cfg.min_react_turns 1 with hm | hm
      · rw [max_eq_left hm] at hlt; omega
      · rw [max_eq_right hm] at hlt; omega
  · next hge =>
    have h1 : cfg.min_react_turns - 1 ≤ (idx : Int) := by
      rcases le_total cfg.min_react_turns 1 with hm | hm
      · omega
      · rw [max_eq_right hm] at hge; omega
    simp [h1]

/-- Updating an existing key in the plan-context dict appends to its list. -/
theorem lookupIn_update (l : List (PlanStep × List StepResult)) (step : PlanStep)
    (r : StepResult) (hk : hasKey l step = true) :
    lookupIn (l.map (fun e => if e.1 = step then (e.1, e.2 ++ [r]) else e)) step
      = lookupIn l step ++ [r] := by
  induction l with
  | nil => simp [hasKey] at hk
  | cons e rest ih =>
    by_cases he : e.1 = step
    · simp [lookupIn, he]
    · have hk2 : hasKey rest step = true := by simpa [hasKey, he] using hk
      simp [lookupIn, he, ih hk2]

/-- A key absent from the dict looks up to the empty result list. -/
theorem lookupIn_no_key (l : List (PlanStep × List StepResult)) (step : PlanStep)
    (hk : hasKey l step = false) : lookupIn l step = [] := by
  induction l with
  | nil => rfl
  | cons e rest ih =>
    by_cases he : e.1 = step
    · simp [hasKey, he] at hk
    · have hk2 : hasKey rest step = false := by simpa [hasKey, he] using hk
      simp [lookupIn, he, ih hk2]

/-- Appending a fresh key to the dict makes it look up to its new list. -/
theorem lookupIn_append_self (l : List (PlanStep × List StepResult)) (step : PlanStep)
    (r : StepResult) (hk : hasKey l step = false) :
    lookupIn (l ++ [(step, [r])]) step = [r] := by
  induction l with
  | nil => simp [lookupIn]
  | cons e rest ih =>
    by_cases he : e.1 = step
    · simp [hasKey, he] at hk
    · have hk2 : hasKey rest step = false := by simpa [hasKey, he] using hk
      simp [lookupIn, he, ih hk2]

/-- `add_result` appends the result to the step's list in the plan context. -/
theorem add_result_lookup (pc : PlanContext) (step : PlanStep) (r : StepResult) :
    lookupSteps (add_result pc step r) step = lookupSteps pc step ++ [r] := by
  unfold add_result lookupSteps
  by_cases hk : hasKey pc.steps step = true
  · simp [hk, lookupIn_update _ _ _ hk]
  · rw [Bool.not_eq_true] at hk
    simp [hk, lookupIn_append_self _ _ _ hk, lookupIn_no_key _ _ hk]

/-- `record_step` appends the result to the step's list in the plan context. -/
theorem record_step_lookup (s : ConversationState) (step : PlanStep) (r : StepResult) :
    lookupSteps (record_step s step r).plan_context step
      = lookupSteps s.plan_context step ++ [r] := by
  unfold record_step
  split <;> simp [add_result_lookup]

/-- With auto-execution off and a callback present, `_confirm_step` returns the
(possibly think-edited) result together with the callback's verdict. -/
theorem confirm_step_callback (cfg : AgentConfig)
    (cb : PlanStep → StepResult → Bool × Option (List Char)) (step : PlanStep)
    (r : StepResult) (h1 : cfg.auto_execute = false)
    (h2 : cfg.approval_callback = some cb) :
    confirm_step cfg step r = .ok (applyEdit cb step r, (cb step r).1) := by
  unfold confirm_step applyEdit
  rw [h1, h2]
  simp

/-- Folding over `range (k+1)` equals folding the shifted function over
`range k` from the updated seed. -/
theorem foldl_range_succ_shift {α : Type} (g : α → Nat → α) (s : α) (k : Nat) :
    (List.range (k + 1)).foldl g s
      = (List.range k).foldl (fun a i => g a (i + 1)) (g s 0) := by
  rw [List.range_succ_eq_map, List.foldl_cons, List.foldl_map]

/-- Recorded results of a fold of `record_step`s for one step. -/
theorem lookupSteps_foldl_record (step : PlanStep) (g : Nat → StepResult) :
    ∀ (idxs : List Nat) (s : ConversationState),
      lookupSteps ((idxs.foldl (fun acc i => record_step acc step (g i)) s).plan_context) step
        = lookupSteps s.plan_context step ++ idxs.map g := by
  intro idxs
  induction idxs with
  | nil => intro s; simp
  | cons i is ih =>
    intro s
    simp only [List.foldl_cons, List.map_cons]
    rw [ih, record_step_lookup]
    simp

/-- The inner scene loop when the gate rejects the result of 0-based turn
`start + k`, having accepted (without completion) all earlier turns: exactly
`k + 1` turns run and the state accumulates the `k` accepted edited results. -/
theorem run_step_turns_reject_aux (cfg : AgentConfig)
    (cb : PlanStep → StepResult → Bool × Option (List Char)) (step : PlanStep)
    (orc : Nat → StepResult) (h1 : cfg.auto_execute = false)
    (h2 : cfg.approval_callback = some cb) :
    ∀ (k start fuel : Nat) (s : ConversationState),
      k < fuel →
      (cb step (orc (start + k))).1 = false →
      (∀ i, i < k → (cb step (orc (start + i))).1 = true ∧
        step_is_complete cfg (applyEdit cb step (orc (start + i))) (start + i) = false) →
      run_step_turns cfg step orc s start fuel =
        .ok ((List.range k).foldl
          (fun acc i => record_step acc step (applyEdit cb step (orc (start + i)))) s,
          k + 1) := by
  intro k
  induction k with
  | zero =>
    intro start fuel s hf hrej _
    obtain ⟨f, rfl⟩ : ∃ f, fuel = f + 1 := ⟨fuel - 1, by omega⟩
    simp only [Nat.add_zero] at hrej
    simp [run_step_turns, confirm_step_callback cfg cb step (orc start) h1 h2, hrej]
  | succ k ih =>
    intro start fuel s hf hrej hacc
    obtain ⟨f, rfl⟩ : ∃ f, fuel = f + 1 := ⟨fuel - 1, by omega⟩
    have ha : (cb step (orc start)).1 = true := by
      have := (hacc 0 (by omega)).1
      simpa using this
    have hc : step_is_complete cfg (applyEdit cb step (orc start)) start = false := by
      have := (hacc 0 (by omega)).2
      simpa using this
    have hrej2 : (cb step (orc (start + 1 + k))).1 = false := by
      have h3 : start + 1 + k = start + (k + 1) := by omega
      rw [h3]; exact hrej
    have hacc2 : ∀ i, i < k → (cb step (orc (start + 1 + i))).1 = true ∧
        step_is_complete cfg (applyEdit cb step (orc (start + 1 + i))) (start + 1 + i) = false := by
      intro i hi
      have h3 : start + 1 + i = start + (i + 1) := by omega
      rw [h3]; exact hacc (i + 1) (by omega)
    have ihres := ih (start + 1) f (record_step s step (applyEdit cb step (orc start)))
      (by omega) hrej2 hacc2
    simp only [run_step_turns, confirm_step_callback cfg cb step (orc start) h1 h2, ha, hc]
    simp only [Bool.true_eq_false, false_or, if_false, if_true]
    rw [ihres]
    rw [foldl_range_succ_shift]
    have hfun : (fun (a : ConversationState) (i : Nat) =>
        record_step a step (applyEdit cb step (orc (start + (i + 1)))))
        = fun a i => record_step a step (applyEdit cb step (orc (start + 1 + i))) := by
      funext a i
      have h4 : start + (i + 1) = start + 1 + i := by omega
      rw [h4]
    simp only [Nat.add_zero, hfun]
    simp

/-- C4: in the scene branch, if the Approval Gate rejects the result of
0-based turn `k` of a step (all earlier turns accepted without completion),
the step's loop stops after exactly `k + 1` turns (no further turns), the
rejected result is not recorded (the step's recorded list is exactly the `k`
earlier accepted, possibly edited, results), and the number of results
recorded for the step is the number of accepted turns `k`, which never
exceeds `max_react_turns`. -/
theorem run_plan_step_rejection (cfg : AgentConfig)
    (cb : PlanStep → StepResult → Bool × Option (List Char)) (step : PlanStep)
    (orc : Nat → StepResult) (s : ConversationState) (k : Nat)
    (h1 : cfg.auto_execute = false) (h2 : cfg.approval_callback = some cb)
    (hk : k < cfg.max_react_turns)
    (hrej : (cb step (orc k)).1 = false)
    (hacc : ∀ i, i < k → (cb step (orc i)).1 = true ∧
      step_is_complete cfg (applyEdit cb step (orc i)) i = false) :
    ∃ s1, run_plan_step cfg step orc s = .ok (s1, k + 1) ∧
      lookupSteps s1.plan_context step = lookupSteps s.plan_context step
        ++ (List.range k).map (fun i => applyEdit cb step (orc i)) ∧
      (lookupSteps s1.plan_context step).length
        = (lookupSteps s.plan_context step).length + k ∧
      k ≤ cfg.max_react_turns := by
  have haux := run_step_turns_reject_aux cfg cb step orc h1 h2 k 0 cfg.max_react_turns
    (set_current_step s step) hk (by simpa using hrej)
    (by intro i hi; simpa using hacc i hi)
  refine ⟨(List.range k).foldl
      (fun acc i => record_step acc step (applyEdit cb step (orc (0 + i))))
      (set_current_step s step), ?_, ?_, ?_, ?_⟩
  · unfold run_plan_step
    exact haux
  · rw [lookupSteps_foldl_record]
    simp [set_current_step, lookupSteps]
  · rw [lookupSteps_foldl_record]
    simp [set_current_step, lookupSteps]
  · omega

/-- C4 witness: the rejection theorem at a concrete configuration where the
gate accepts turn 0 and rejects turn 1 out of a 3-turn budget. -/
theorem run_plan_step_rejection_witness :
    ∃ s1, run_plan_step cfgReject PlanStep.UNDERSTAND_INTENT orcReject emptyState
        = .ok (s1, 2) ∧
      lookupSteps s1.plan_context PlanStep.UNDERSTAND_INTENT
        = lookupSteps emptyState.plan_context PlanStep.UNDERSTAND_INTENT
          ++ (List.range 1).map
            (fun i => applyEdit cbReject PlanStep.UNDERSTAND_INTENT (orcReject i)) ∧
      (lookupSteps s1.plan_context PlanStep.UNDERSTAND_INTENT).length
        = (lookupSteps emptyState.plan_context PlanStep.UNDERSTAND_INTENT).length + 1 ∧
      1 ≤ cfgReject.max_react_turns :=
  run_plan_step_rejection cfgReject cbReject PlanStep.UNDERSTAND_INTENT orcReject
    emptyState 1 rfl rfl (by decide) (by decide)
    (by
      intro i hi
      have h0 : i = 0 := by omega
      subst h0
      exact ⟨by decide, by decide⟩)

/-- C5 counterexample: on a whitespace-only model response, `derive_goal`
completes normally (the source has no error path at agent.py lines 104-112 and
no `EmptyGoalError` exists anywhere in the repository), storing the EMPTY
string as `overall_goal` and returning it. -/
theorem derive_goal_whitespace_cex :
    (derive_goal emptyState ("   ".data)).1.overall_goal = some [] ∧
    (derive_goal emptyState ("   ".data)).2 = [] := by
  refine ⟨by decide, by decide⟩

/-- C5 (amended): when the model's response to the goal-derivation request is
only whitespace, `derive_goal` raises no error: it stores the empty string as
`overall_goal`, returns the empty string, and leaves the rest of the session
state unchanged. -/
theorem derive_goal_amended (s : ConversationState) (response : List Char)
    (h : pyStrip response = []) :
    (derive_goal s response).1.overall_goal = some [] ∧
    (derive_goal s response).2 = [] ∧
    (derive_goal s response).1.plan_context = s.plan_context ∧
    (derive_goal s response).1.topo_json = s.topo_json ∧
    (derive_goal s response).1.current_step = s.current_step ∧
    (derive_goal s response).1.persistent_prompts = s.persistent_prompts := by
  unfold derive_goal set_goal
  simp [h]

/-- C5 witness: the amended theorem at a concrete whitespace-only response. -/
theorem derive_goal_amended_witness :
    (derive_goal emptyState ("  ".data)).1.overall_goal = some [] :=
  (derive_goal_amended emptyState ("  ".data) (by decide)).1

/-- C6: `is_scene_construction_goal` answers true iff the stored goal is set
and non-empty AND the classifier's response contains `"yes"`
case-insensitively anywhere; with an unset or empty goal it returns false
without invoking the model (second component false). -/
theorem is_scene_construction_goal_spec (goal : Option (List Char)) (response : List Char) :
    ((is_scene_construction_goal goal response).1 = true ↔
      (pyTruthyStr goal = true ∧ containsSub (toLowerL response) yesKey = true)) ∧
    (pyTruthyStr goal = false → is_scene_construction_goal goal response = (false, false)) := by
  unfold is_scene_construction_goal
  by_cases hg : pyTruthyStr goal = false
  · simp [hg]
  · rw [Bool.not_eq_false] at hg
    simp [hg]

/-- C6 witness: with no goal set, the classifier is skipped and false comes
back; the iff applied at a goal and a shouting `"YES,..."` response. -/
theorem is_scene_construction_goal_witness :
    is_scene_construction_goal none ("Yes".data) = (false, false) ∧
    (is_scene_construction_goal (some ("g".data)) ("YES, build it".data)).1 = true :=
  ⟨(is_scene_construction_goal_spec none ("Yes".data)).2 rfl,
   (is_scene_construction_goal_spec (some ("g".data)) ("YES, build it".data)).1.mpr
     ⟨by decide, by decide⟩⟩

/-- C7: `_confirm_step` with auto-execution on returns the result unchanged
with true; with auto-execution off and no callback it raises the
configuration `ValueError`; and when the callback supplies non-empty edited
think text, the returned result's think is replaced by it. -/
theorem confirm_step_spec (cfg : AgentConfig) (step : PlanStep) (result : StepResult) :
    (cfg.auto_execute = true → confirm_step cfg step result = .ok (result, true)) ∧
    (cfg.auto_execute = false → cfg.approval_callback = none →
      confirm_step cfg step result = .error (.valueError approvalErrMsg)) ∧
    (∀ cb t proceed, cfg.auto_execute = false → cfg.approval_callback = some cb →
      cb step result = (proceed, some t) → t ≠ [] →
      confirm_step cfg step result = .ok ({ result with think := t }, proceed)) := by
  refine ⟨?_, ?_, ?_⟩
  · intro h
    unfold confirm_step
    simp [h]
  · intro h1 h2
    unfold confirm_step
    simp [h1, h2]
  · intro cb t proceed h1 h2 hcb ht
    unfold confirm_step
    simp [h1, h2, hcb, ht]

/-- C7 witness: the three cases of `confirm_step_spec` at concrete
configurations. -/
theorem confirm_step_spec_witness :
    confirm_step defaultConfig PlanStep.UNDERSTAND_INTENT sampleResult
      = .ok (sampleResult, true) ∧
    confirm_step cfgNoCb PlanStep.UNDERSTAND_INTENT sampleResult
      = .error (.valueError approvalErrMsg) ∧
    confirm_step cfgEdit PlanStep.UNDERSTAND_INTENT sampleResult
      = .ok ({ sampleResult with think := ("edited".data) }, true) :=
  ⟨(confirm_step_spec defaultConfig PlanStep.UNDERSTAND_INTENT sampleResult).1 rfl,
   (confirm_step_spec cfgNoCb PlanStep.UNDERSTAND_INTENT sampleResult).2.1 rfl rfl,
   (confirm_step_spec cfgEdit PlanStep.UNDERSTAND_INTENT sampleResult).2.2
     cbEdit ("edited".data) true rfl rfl rfl (by decide)⟩

/-- C8: `record_step` overwrites `topo_json` with the result's output exactly
when the step is `GENERATE_JSON` and the output is a truthy (non-`None`,
non-empty) string; otherwise `topo_json` is unchanged; and the only fields it
ever modifies are `plan_context` (by `add_result`) and `topo_json`. -/
theorem record_step_spec (s : ConversationState) (step : PlanStep) (result : StepResult) :
    ((step = PlanStep.GENERATE_JSON ∧ pyTruthyStr result.output = true) →
      (record_step s step result).topo_json = TopoVal.str (result.output.getD [])) ∧
    (¬(step = PlanStep.GENERATE_JSON ∧ pyTruthyStr result.output = true) →
      (record_step s step result).topo_json = s.topo_json) ∧
    (record_step s step result).overall_goal = s.overall_goal ∧
    (record_step s step result).current_step = s.current_step ∧
    (record_step s step result).persistent_prompts = s.persistent_prompts ∧
    (record_step s step result).plan_context = add_result s.plan_context step result := by
  unfold record_step
  by_cases h : step = PlanStep.GENERATE_JSON ∧ pyTruthyStr result.output = true <;>
    simp [h]

/-- C8 witness: recording a `GENERATE_JSON` result with a structured output
overwrites `topo_json` with that output. -/
theorem record_step_spec_witness :
    (record_step emptyState PlanStep.GENERATE_JSON jsonResult).topo_json
      = TopoVal.str ("x".data) :=
  (record_step_spec emptyState PlanStep.GENERATE_JSON jsonResult).1 ⟨rfl, by decide⟩

/-- C9: when the goal is classified as not scene-construction, `run_plan`
executes only the generic ReAct branch, whose accepted results live in an
ephemeral list: whenever the run completes, the final state's `plan_context`
equals the initial one, so a fresh (empty) `plan_context` is still empty at
the end of the run. -/
theorem run_plan_generic_branch (cfg : AgentConfig) (s0 : ConversationState)
    (topo : Option TopoVal) (orc : ModelOracle)
    (hclass : (is_scene_construction_goal (some (pyStrip orc.goalResponse))
      orc.classifyResponse).1 = false) :
    ∀ sf, run_plan cfg s0 topo orc = .ok sf →
      sf.plan_context = s0.plan_context ∧
      (s0.plan_context.steps = [] → sf.plan_context.steps = []) := by
  intro sf h
  have hpc : sf.plan_context = s0.plan_context := by
    by_cases ht : topoTruthy topo = true <;>
      simp only [run_plan, derive_goal, set_goal, set_topology, ht, if_true, if_false,
        Bool.false_eq_true, hclass, if_pos rfl] at h <;>
      rcases hgr : run_generic_react cfg (orc.turnResult PlanStep.UNDERSTAND_INTENT)
        with e | results <;>
      rw [hgr] at h <;>
      (cases h <;> rfl)
  exact ⟨hpc, fun h0 => by rw [hpc]; exact h0⟩

/-- C9 witness: a concrete complete run classified "no" leaves the fresh
state's `plan_context` empty. -/
theorem run_plan_generic_branch_witness :
    genericFinal.plan_context = emptyState.plan_context :=
  (run_plan_generic_branch cfgSmall emptyState none orcGeneric (by decide)
    genericFinal (by rfl)).1

/-- C10: for every base length and message list (including the empty list),
`_extract_step_result` returns a `StepResult` whose `think`, `action` and
`observe` are non-empty (via the `"(无新思考)"` / `"N/A"` / think fallbacks)
and whose `output` is always `None`: the tool-call extraction path never
produces a structured output. -/
theorem extract_step_result_spec (base_len : Nat) (messages : List BaseMessage) :
    (extract_step_result base_len messages).think ≠ [] ∧
    (extract_step_result base_len messages).action ≠ [] ∧
    (extract_step_result base_len messages).observe ≠ [] ∧
    (extract_step_result base_len messages).output = none := by
  unfold extract_step_result
  refine ⟨?_, ?_, ?_, rfl⟩
  · by_cases h1 : pyStrip (joinParts ['\n'] (collectParts (messages.drop base_len)).1) = [] <;>
      simp [h1, noNewThink]
  · by_cases h2 : pyStrip (joinParts actionSep (collectParts (messages.drop base_len)).2.1) = [] <;>
      simp [h2, nA]
  · by_cases h3 : pyStrip (joinParts ['\n'] (collectParts (messages.drop base_len)).2.2) = []
    · by_cases h1 : pyStrip (joinParts ['\n'] (collectParts (messages.drop base_len)).1) = [] <;>
        simp [h1, h3, noNewThink]
    · simp [h3]
